import Mathlib

/-!
Shallow embedding of the request lifecycle orchestration core of the `iib`
repository (`src/iib/web/api_v1.py`): request state history, patch application,
queue routing, batch validation and batch dispatch, together with proofs about
the claims of the specification.

Conventions:
* Python `dict` payloads are embedded as association lists keyed by `String`.
* JSON values appearing in the modelled payloads are embedded by the inductive
  `JVal` (batch members, argument lists) and `PatchVal` (patch payloads).
* Python exceptions are embedded by `Except`; the HTTP error classes raised by
  `patch_request` are collected in `PatchError`.
* Code of the repository that is not under `src/` (models.py, errors.py) is
  modelled from the spec; every such definition carries a doc comment starting
  with `Modelled from the spec:`.

The file is organised as all definitions first, then all theorems.
-/

namespace IIB

/-! ## Payload values and the caller identity -/

/-- A JSON-ish value as used by the batch member payloads and celery argument
lists in `api_v1.py`: strings, lists of strings, booleans, integers and
Python `None` (`null`). -/
inductive JVal where
  | str (s : String)
  | strList (xs : List String)
  | bool (b : Bool)
  | nat (n : Nat)
  | null
deriving DecidableEq, Repr

/-- A batch member / request payload: a Python dict from field names to values. -/
abbrev Member := List (String × JVal)

/-- Python `payload.get(k)`: first binding of key `k`, if any. -/
def mget (m : Member) (k : String) : Option JVal :=
  (m.find? (fun kv => kv.1 == k)).map (fun kv => kv.2)

/-- Python `payload.get(k)` with `None` for an absent key (the value that ends
up in the celery argument list). -/
def mgetD (m : Member) (k : String) : JVal :=
  (mget m k).getD .null

/-- Python truthiness of `payload.get(k)`: absent keys, `None`, empty strings,
empty lists, `False` and `0` are falsy. -/
def jtruthy : Option JVal → Bool
  | none => false
  | some (.str s) => !(s == "")
  | some (.strList xs) => !xs.isEmpty
  | some (.bool b) => b
  | some (.nat n) => !(n == 0)
  | some .null => false

/-- The caller identity handed to the endpoints by flask-login:
`current_user.is_authenticated` and `current_user.username`.
`is_authenticated` is only ever false when auth is disabled. -/
structure Caller where
  is_authenticated : Bool
  username : String
deriving DecidableEq, Repr

/-! ## Queue routing (`_get_user_queue`, api_v1.py lines 172-193) -/

/-- Lookup `config['IIB_USER_TO_QUEUE'].get(k)` over the configured mapping. -/
def lookupQ (m : List (String × String)) (k : String) : Option String :=
  (m.find? (fun kv => kv.1 == k)).map (fun kv => kv.2)

/-- Python falsiness of the looked-up queue (`if not queue:`): absent or the
empty string. -/
def falsyQ : Option String → Bool
  | none => true
  | some s => s == ""

/-- Model of `_get_user_queue(serial=...)`: `None` (the default queue) for an
unauthenticated caller; otherwise look up `SERIAL:<user>` or
`PARALLEL:<user>`, falling back to the bare username. -/
def _get_user_queue (userToQueue : List (String × String)) (caller : Caller)
    (serial : Bool) : Option String :=
  if !caller.is_authenticated then none
  else
    let labeled_username := (if serial then "SERIAL:" else "PARALLEL:") ++ caller.username
    let queue := lookupQ userToQueue labeled_username
    if falsyQ queue then lookupQ userToQueue caller.username else queue

/-! ## Forced overwrite (`_should_force_overwrite`, api_v1.py lines 147-169,
and its use at lines 214-215 of `add_bundles`) -/

/-- Model of `_should_force_overwrite()`: false when auth is disabled, otherwise true
exactly when the caller is in `IIB_PRIVILEGED_USERNAMES` and
`IIB_FORCE_OVERWRITE_FROM_INDEX` is set. -/
def _should_force_overwrite (privileged : List String) (forceFlag : Bool)
    (caller : Caller) : Bool :=
  if !caller.is_authenticated then false
  else decide (caller.username ∈ privileged) && forceFlag

/-- Computation `overwrite_from_index = _should_force_overwrite() or payload.get('overwrite_from_index')`
(api_v1.py line 214; `payloadOverwrite` is the truthiness of the payload field). -/
def overwrite_from_index (privileged : List String) (forceFlag : Bool)
    (caller : Caller) (payloadOverwrite : Bool) : Bool :=
  _should_force_overwrite privileged forceFlag caller || payloadOverwrite

/-! ## Request state machine

`Request.add_state` lives in `iib/web/models.py`, which is not under `src/`:
it is modelled from spec section 4.2 (and sections 3 and 8 for terminal
states). -/

/-- Errors raised by `patch_request` and the state machine. -/
inductive PatchError where
  | forbidden (msg : String)
  | notFound
  | validationError (msg : String)
  | invalidState
  | illegalTransition
deriving DecidableEq, Repr

/-- The fixed request state enum: `in_progress` (initial), `complete`
(terminal), `failed` (terminal). -/
def validStates : List String := ["in_progress", "complete", "failed"]

/-- The terminal states. -/
def terminalStates : List String := ["complete", "failed"]

/-- The append-only state history of a request: the current `(state, reason)`
entry followed by the older entries, most recent first. -/
structure StateHist where
  current : String × String
  older : List (String × String)
deriving DecidableEq, Repr

/-- The full history of a request, most recent entry first. -/
def StateHist.entries (h : StateHist) : List (String × String) :=
  h.current :: h.older

/-- Modelled from the spec: `Request.add_state` (iib/web/models.py, not under
`src/`), spec section 4.2 — validate the new state against the fixed enum;
return a no-op when `(state, reason)` equals the current entry; forbid any
other transition out of a terminal state (`IllegalTransitionError`, spec
sections 3 and 8: terminal states stop further transitions except idempotent
repeats); otherwise append a new entry, making it current.  The returned
`Bool` is true when a transition happened (`Transitioned` vs `NoOp`). -/
def add_state (h : StateHist) (s reason : String) :
    Except PatchError (StateHist × Bool) :=
  if s ∈ validStates then
    if h.current = (s, reason) then .ok (h, false)
    else if h.current.1 ∈ terminalStates then .error .illegalTransition
    else .ok (⟨(s, reason), h.current :: h.older⟩, true)
  else .error .invalidState

/-! ## Patch application (`patch_request`, api_v1.py lines 248-348) -/

/-- A JSON value supplied in a PATCH payload: a string, a list of strings
(`arches`), an object mapping operators to lists of bundles
(`bundle_mapping`), or a boolean (standing in for the non-string,
non-list JSON values a client may send). -/
inductive PatchVal where
  | pstr (s : String)
  | plist (xs : List String)
  | pmap (kvs : List (String × List String))
  | pbool (b : Bool)
deriving DecidableEq, Repr

/-- A PATCH payload: a Python dict from keys to values. -/
abbrev PatchPayload := List (String × PatchVal)

/-- Python `payload.get(k)` over a PATCH payload. -/
def pget (kvs : PatchPayload) (k : String) : Option PatchVal :=
  (kvs.find? (fun kv => kv.1 == k)).map (fun kv => kv.2)

/-- A persisted request as far as `patch_request` observes it: state
history, the image reference fields, the architecture set and the
bundle-to-operator mapping. -/
structure ModelRequest where
  hist : StateHist
  images : List (String × String)
  arches : List String
  bundleMapping : List (String × String)
deriving DecidableEq, Repr

/-- Modelled from the spec: `Request.get_mutable_keys` (iib/web/models.py, not
under `src/`), spec section 6 — the allow-list of mutable fields: the resolved
image references (the `image_keys` tuple of api_v1.py lines 312-318),
architecture additions, bundle-to-operator mapping additions and the
`(state, state_reason)` pair. -/
def mutableKeys : List String :=
  ["binary_image_resolved", "bundle_image", "from_bundle_image_resolved",
   "from_index_resolved", "index_image", "arches", "bundle_mapping",
   "state", "state_reason"]

/-- The `image_keys` tuple of api_v1.py lines 312-318. -/
def imageKeys : List String :=
  ["binary_image_resolved", "bundle_image", "from_bundle_image_resolved",
   "from_index_resolved", "index_image"]

/-- The per-key value validation of api_v1.py lines 281-292: `arches` must be
a list of strings (`Architecture.validate_architecture_json`, modelled from
the spec as accepting exactly lists of strings), `bundle_mapping` must be an
object with lists of strings as values, and every other allowed key must be a
non-empty string. -/
def validatePatchValue (k : String) (v : PatchVal) : Except PatchError Unit :=
  if k == "arches" then
    match v with
    | .plist _ => .ok ()
    | _ => .error (.validationError "Architectures should be specified as a non-empty array of strings")
  else if k == "bundle_mapping" then
    match v with
    | .pmap _ => .ok ()
    | _ => .error (.validationError ("The \"" ++ k ++ "\" key must be an object with the values as lists of strings"))
  else
    match v with
    | .pstr s =>
        if s == "" then .error (.validationError ("The value for \"" ++ k ++ "\" must be a non-empty string"))
        else .ok ()
    | _ => .error (.validationError ("The value for \"" ++ k ++ "\" must be a non-empty string"))

/-- The `for key, value in payload.items()` validation loop. -/
def validateValues : PatchPayload → Except PatchError Unit
  | [] => .ok ()
  | (k, v) :: rest =>
    match validatePatchValue k v with
    | .error e => .error e
    | .ok _ => validateValues rest

/-- api_v1.py lines 294-297: `state` and `state_reason` must be supplied
together. -/
def checkStatePair (kvs : PatchPayload) : Except PatchError Unit :=
  if (pget kvs "state").isSome && !(pget kvs "state_reason").isSome then
    .error (.validationError "The \"state_reason\" key is required when \"state\" is supplied")
  else if (pget kvs "state_reason").isSome && !(pget kvs "state").isSome then
    .error (.validationError "The \"state\" key is required when \"state_reason\" is supplied")
  else .ok ()

/-- Modelled from the spec: `RequestStateMapping.validate_state`
(iib/web/models.py, not under `src/`) — reject a state that is not in the
fixed enum. -/
def validate_state (s : String) : Except PatchError Unit :=
  if s ∈ validStates then .ok ()
  else .error (.validationError ("The state \"" ++ s ++ "\" is invalid. It must be one of: complete, failed, in_progress"))

/-- api_v1.py lines 299-310: when the payload carries the `(state,
state_reason)` pair, validate the state; if the pair equals the request's
current entry, add no new state (idempotent short-circuit against a Celery
task executed twice); otherwise call `add_state` and flag the update.  The
`(pstr, pstr)` shape is guaranteed here by `validateValues`. -/
def applyStatePatch (r : ModelRequest) (kvs : PatchPayload) :
    Except PatchError (ModelRequest × Bool) :=
  match pget kvs "state", pget kvs "state_reason" with
  | some (.pstr s), some (.pstr reason) =>
    match validate_state s with
    | .error e => .error e
    | .ok _ =>
      if r.hist.current = (s, reason) then .ok (r, false)
      else
        match add_state r.hist s reason with
        | .error e => .error e
        | .ok (h, _) => .ok ({ r with hist := h }, true)
  | _, _ => .ok (r, false)

/-- Update an association list at a key, appending when absent (the
get-or-create / setattr persistence behaviour). -/
def setAssoc (m : List (String × String)) (k v : String) : List (String × String) :=
  if (m.find? (fun kv => kv.1 == k)).isSome then
    m.map (fun kv => if kv.1 == k then (k, v) else kv)
  else m ++ [(k, v)]

/-- api_v1.py lines 312-325: set each image reference supplied in the payload
(values already validated as non-empty strings). -/
def applyImages (r : ModelRequest) (kvs : PatchPayload) : ModelRequest :=
  imageKeys.foldl
    (fun acc k =>
      match pget kvs k with
      | some (.pstr s) => { acc with images := setAssoc acc.images k s }
      | _ => acc)
    r

/-- Modelled from the spec: `Request.add_architecture` (iib/web/models.py, not
under `src/`) — architecture additions, get-or-create: add the architecture
when not already present. -/
def addArch (xs : List String) (a : String) : List String :=
  if a ∈ xs then xs else xs ++ [a]

/-- api_v1.py lines 327-328: add each architecture in `payload.get('arches', [])`. -/
def applyArches (r : ModelRequest) (kvs : PatchPayload) : ModelRequest :=
  match pget kvs "arches" with
  | some (.plist as) => { r with arches := as.foldl addArch r.arches }
  | _ => r

/-- The nested loop of api_v1.py lines 330-334: for every `(operator,
bundles)` pair, record `bundle -> operator` for each bundle. -/
def bundleMappingFold (init : List (String × String))
    (m : List (String × List String)) : List (String × String) :=
  m.foldl (fun acc p => p.2.foldl (fun acc2 b => setAssoc acc2 b p.1) acc) init

/-- api_v1.py lines 330-334: record `bundle -> operator` for every bundle of
every operator in the supplied bundle mapping. -/
def applyBundleMapping (r : ModelRequest) (kvs : PatchPayload) : ModelRequest :=
  match pget kvs "bundle_mapping" with
  | some (.pmap m) => { r with bundleMapping := bundleMappingFold r.bundleMapping m }
  | _ => r

/-- The persisted requests, keyed by request id. -/
abbrev Store := List (Nat × ModelRequest)

/-- Lookup `Request.query.get(request_id)`. -/
def sget (store : Store) (rid : Nat) : Option ModelRequest :=
  (store.find? (fun p => p.1 == rid)).map (fun p => p.2)

/-- Commit the patched request back to the store. -/
def sset (store : Store) (rid : Nat) (r : ModelRequest) : Store :=
  store.map (fun p => if p.1 == rid then (rid, r) else p)

/-- Model of `patch_request` (api_v1.py lines 248-348): the worker-only guard, the
payload checks, the request lookup, the allow-list check, per-key value
validation, the `(state, state_reason)` pair rule, the idempotent state
update, and the image / architecture / bundle-mapping updates.  The payload
is `none` when the request body is not a JSON object.  On success it returns
the committed store and whether a state-change notification is sent
(`state_updated`, api_v1.py lines 338-339). -/
def patch_request (workers : List String) (caller : Caller)
    (payload : Option PatchPayload) (store : Store) (request_id : Nat) :
    Except PatchError (Store × Bool) :=
  if caller.is_authenticated ∧ caller.username ∉ workers then
    .error (.forbidden "This API endpoint is restricted to IIB workers")
  else
    match payload with
    | none => .error (.validationError "The input data must be a JSON object")
    | some kvs =>
      if kvs.isEmpty then
        .error (.validationError "At least one key must be specified to update the request")
      else
        match sget store request_id with
        | none => .error .notFound
        | some r =>
          let invalid := (kvs.filter (fun kv => !(mutableKeys.contains kv.1))).map (fun kv => kv.1)
          if !invalid.isEmpty then
            .error (.validationError ("The following keys are not allowed: " ++ String.intercalate ", " invalid))
          else
            match validateValues kvs with
            | .error e => .error e
            | .ok _ =>
              match checkStatePair kvs with
              | .error e => .error e
              | .ok _ =>
                match applyStatePatch r kvs with
                | .error e => .error e
                | .ok (r1, state_updated) =>
                  let r2 := applyBundleMapping (applyArches (applyImages r1 kvs) kvs) kvs
                  .ok (sset store request_id r2, state_updated)

/-! ## Helper definitions for the patch theorems -/

/-- Number of history entries equal to a given `(state, reason)` pair. -/
def countPair (p : String × String) (l : List (String × String)) : Nat :=
  l.countP (fun q => decide (q = p))

/-- The canonical payload carrying exactly the `(state, state_reason)` pair,
as sent by a worker reporting progress. -/
def statePatchPayload (S R : String) : PatchPayload :=
  [("state", .pstr S), ("state_reason", .pstr R)]

/-! ## Batch building and validation
(`regenerate_bundle_batch`, api_v1.py lines 431-462, and `add_rm_batch`,
lines 497-533) -/

/-- Python `str(e).rstrip('.')`: strip all trailing dots. -/
def rstripDots (s : String) : String :=
  String.mk ((s.data.reverse.dropWhile (fun c => c == '.')).reverse)

/-- The index annotation added to a member's `ValidationError`
(api_v1.py lines 455-458 and 526-529). -/
def annotateIndex (msg : String) (i : Nat) : String :=
  rstripDots msg ++ ". This occurred on the build request in index " ++ toString i ++ "."

/-- Python `payload['build_requests'].index(build_request)`: index of the first
member equal to the given one (Python `list.index`). -/
def pyIndex (all : List Member) (m : Member) : Nat :=
  all.findIdx (fun x => decide (x = m))

/-- The request variant constructed for a batch member. -/
inductive Variant where
  | rm
  | add
  | regen
deriving DecidableEq, Repr

/-- Modelled from the spec: `RequestRm.from_json` (iib/web/models.py, not
under `src/`) — validates that the member's required top-level fields for the
remove variant are present (spec section 4.4); the dispatcher (api_v1.py
lines 561-570) reads `operators`, `binary_image` and `from_index`
unconditionally, so those are the required fields.  The spec does not ask the
per-variant validator to reject fields of the other variant. -/
def rm_from_json (m : Member) : Except String Unit :=
  if (mget m "operators").isSome then
    if (mget m "binary_image").isSome then
      if (mget m "from_index").isSome then .ok ()
      else .error "Missing required parameter from_index"
    else .error "Missing required parameter binary_image"
  else .error "Missing required parameter operators"

/-- Modelled from the spec: `RequestAdd.from_json` (iib/web/models.py, not
under `src/`) — required fields `bundles` and `binary_image` (read
unconditionally by the dispatcher, api_v1.py lines 548-551). -/
def add_from_json (m : Member) : Except String Unit :=
  if (mget m "bundles").isSome then
    if (mget m "binary_image").isSome then .ok ()
    else .error "Missing required parameter binary_image"
  else .error "Missing required parameter bundles"

/-- Modelled from the spec: `RequestRegenerateBundle.from_json`
(iib/web/models.py, not under `src/`) — required field `from_bundle_image`
(read unconditionally by the dispatcher, api_v1.py line 475). -/
def regen_from_json (m : Member) : Except String Unit :=
  if (mget m "from_bundle_image").isSome then .ok ()
  else .error "Missing required parameter from_bundle_image"

/-- The member discrimination of `add_rm_batch` (api_v1.py lines 515-529):
a truthy `operators` field selects the remove variant, otherwise a truthy
`bundles` field selects the add variant, otherwise the member is rejected. -/
def classify_member (m : Member) : Except String Variant :=
  if jtruthy (mget m "operators") then
    match rm_from_json m with
    | .error e => .error e
    | .ok _ => .ok .rm
  else if jtruthy (mget m "bundles") then
    match add_from_json m with
    | .error e => .error e
    | .ok _ => .ok .add
  else .error "Build request is not a valid Add/Rm request."

/-- The member validation of `regenerate_bundle_batch` (api_v1.py lines
449-458): every member must parse as a regenerate-bundle request. -/
def regen_classify (m : Member) : Except String Variant :=
  match regen_from_json m with
  | .error e => .error e
  | .ok _ => .ok .regen

/-- The member loop shared by both batch endpoints (api_v1.py lines 446-460
and 512-531): validate each member in order; on the first invalid member,
abort with the error annotated with `list.index(member)`; otherwise collect
the parsed requests.  `all` is the full `payload['build_requests']` list used
for the index annotation. -/
def buildGo (validate : Member → Except String Variant) (all : List Member) :
    List Member → Except String (List Variant)
  | [] => .ok []
  | m :: rest =>
    match validate m with
    | .error e => .error (annotateIndex e (pyIndex all m))
    | .ok v =>
      match buildGo validate all rest with
      | .error e => .error e
      | .ok vs => .ok (v :: vs)

/-- Endpoint `add_rm_batch`: validate and build all members (api_v1.py lines 512-531). -/
def add_rm_batch_build (members : List Member) : Except String (List Variant) :=
  buildGo classify_member members members

/-- Endpoint `regenerate_bundle_batch`: validate and build all members (api_v1.py
lines 446-460). -/
def regenerate_bundle_batch_build (members : List Member) : Except String (List Variant) :=
  buildGo regen_classify members members

/-- Modelled from the spec: the initial state of a freshly created request
(spec section 4.2: `in_progress` is the initial state). -/
def initialState : StateHist :=
  ⟨("in_progress", "The request was initiated"), []⟩

/-- The persisted effect of a batch build: `db.session.commit()` runs only
after the whole member loop succeeded (api_v1.py lines 462 and 533); on a
`ValidationError` the transaction is rolled back (line 454) or never
committed (the session is discarded when the exception propagates), so the
store is unchanged. -/
def buildPersisted (validate : Member → Except String Variant)
    (prior : List StateHist) (members : List Member) : List StateHist :=
  match buildGo validate members members with
  | .error _ => prior
  | .ok vs => prior ++ vs.map (fun _ => initialState)

/-- Discriminates the error form of an `Except`. -/
def isErr {ε α : Type} : Except ε α → Bool
  | .error _ => true
  | .ok _ => false

/-- A valid remove-variant batch member. -/
def rmMemberEx : Member :=
  [("operators", .strList ["o"]), ("binary_image", .str "b"), ("from_index", .str "f")]

/-- A batch member carrying neither `operators` nor `bundles`. -/
def badMemberEx : Member := [("annotations", .str "x")]

/-- A two-member batch whose second member is invalid. -/
def cexBatch : List Member := [rmMemberEx, badMemberEx]

/-- A batch member carrying both discriminating fields (`operators` and
`bundles`) together with the fields required by both variants. -/
def ambiguousMember : Member :=
  [("operators", .strList ["op"]), ("bundles", .strList ["b"]),
   ("binary_image", .str "bi"), ("from_index", .str "fi")]

/-! ## Batch dispatch
(`regenerate_bundle_batch`, api_v1.py lines 465-494, and `add_rm_batch`,
lines 536-605) -/

/-- A committed batch request as the dispatch loops see it: its id and its
state history.  The argument lists, queues and callbacks built per request do
not influence the failure reconciliation and are elided. -/
structure BReq where
  rid : Nat
  hist : StateHist
deriving DecidableEq, Repr

/-- The standard reason recorded when the broker is unreachable (spec
section 4.5). -/
def brokerFailureReason : String := "broker unavailable"

/-- Modelled from the spec: `handle_broker_error` / `handle_broker_batch_error`
(iib/web/errors.py, not under `src/`), spec section 4.5 step 4 — transition
the affected request to `failed` with the standard broker-unavailable reason
through the state machine of section 4.2, so double-marking is a no-op. -/
def markFailed (r : BReq) : BReq :=
  match add_state r.hist "failed" brokerFailureReason with
  | .ok (h, _) => { r with hist := h }
  | .error _ => r

/-- Handler `[r for r in requests if str(r.id) not in processed_request_ids]` followed
by marking each such request failed (api_v1.py lines 486-487 and 595-596),
expressed as an update of the committed request rows. -/
def markUnprocessed (processed : List Nat) (state : List BReq) : List BReq :=
  state.map (fun r => if r.rid ∈ processed then r else markFailed r)

/-- The submission loop of `regenerate_bundle_batch` (api_v1.py lines
470-484): the whole loop body sits in a single `try`, so the loop stops at
the first broker error.  Returns the processed request ids, the attempted
loop indices, and the index of the failed submission, if any. -/
def regen_submit (broker : Nat → Bool) : Nat → List Nat → List Nat × List Nat × Option Nat
  | _, [] => ([], [], none)
  | i, rid :: rest =>
    if broker i then ([], [i], some i)
    else
      let res := regen_submit broker (i + 1) rest
      (rid :: res.1, i :: res.2.1, res.2.2)

/-- Endpoint `regenerate_bundle_batch` dispatch (api_v1.py lines 469-488): submit in
order until the first `kombu.exceptions.OperationalError`; on an error, mark
every request whose id is not among the processed ids as failed.  Also
returns the list of loop indices at which a submission was attempted. -/
def regenerate_dispatch (broker : Nat → Bool) (reqs : List BReq) : List BReq × List Nat :=
  let res := regen_submit broker 0 (reqs.map BReq.rid)
  match res.2.2 with
  | none => (reqs, res.2.1)
  | some _ => (markUnprocessed res.1 reqs, res.2.1)

/-- The submission loop of `add_rm_batch` (api_v1.py lines 540-598): the
`try` sits inside the loop around the single submission, so on an
`OperationalError` every request not yet in `processed_request_ids` is marked
failed and the loop continues; the current request's id is appended to
`processed_request_ids` even when its submission failed (line 598). -/
def add_rm_go (broker : Nat → Bool) : Nat → List Nat → List Nat → List BReq → List BReq × List Nat
  | _, _, [], state => (state, [])
  | i, processed, rid :: rest, state =>
    let state1 := if broker i then markUnprocessed processed state else state
    let res := add_rm_go broker (i + 1) (processed ++ [rid]) rest state1
    (res.1, i :: res.2)

/-- Endpoint `add_rm_batch` dispatch (api_v1.py lines 536-605). -/
def add_rm_dispatch (broker : Nat → Bool) (reqs : List BReq) : List BReq × List Nat :=
  add_rm_go broker 0 [] (reqs.map BReq.rid) reqs

/-- A three-request batch, all freshly created (`in_progress`). -/
def cexReqs : List BReq :=
  [⟨1, initialState⟩, ⟨2, initialState⟩, ⟨3, initialState⟩]

/-- A broker that raises a transport error only at submission index 1. -/
def cexBroker : Nat → Bool := fun i => i == 1

/-! ## Celery argument redaction (`add_bundles`, api_v1.py lines 216-233;
the same pattern recurs in `add_rm_batch`, lines 548-576) -/

/-- Python `list.index(value)`: position of the first element equal to `value`
(Python semantics; the value is guaranteed present where the source calls
it). -/
def jindexOf (v : JVal) (xs : List JVal) : Nat :=
  xs.findIdx (fun x => decide (x = v))

/-- Assignment `safe_args[safe_args.index(token)] = '*****'` (api_v1.py lines 231 and
233): overwrite the FIRST element equal to the token value. -/
def redactFirst (v : JVal) (xs : List JVal) : List JVal :=
  xs.set (jindexOf v xs) (.str "*****")

/-- The celery argument list of `add_bundles` (api_v1.py lines 216-228);
absent payload keys contribute Python `None`. -/
def add_bundles_args (request_id : Nat) (payload : Member) (overwrite : Bool)
    (greenwave : JVal) : List JVal :=
  [mgetD payload "bundles", mgetD payload "binary_image", .nat request_id,
   mgetD payload "from_index", mgetD payload "add_arches", mgetD payload "cnr_token",
   mgetD payload "organization", mgetD payload "force_backport", .bool overwrite,
   mgetD payload "overwrite_from_index_token", greenwave]

/-- Computation of `safe_args` in `add_bundles` (api_v1.py lines 229-233): copy the args and
redact the first occurrence of each truthy token value. -/
def add_bundles_safe_args (payload : Member) (args : List JVal) : List JVal :=
  let sa := args
  let sa := if jtruthy (mget payload "cnr_token") then
      redactFirst (mgetD payload "cnr_token") sa
    else sa
  if jtruthy (mget payload "overwrite_from_index_token") then
    redactFirst (mgetD payload "overwrite_from_index_token") sa
  else sa

/-- An `add_bundles` payload in which `from_index` happens to equal the
`cnr_token` value. -/
def cexAddPayload : Member :=
  [("bundles", .strList ["b"]), ("binary_image", .str "bi"),
   ("from_index", .str "secret"), ("cnr_token", .str "secret")]

/-! ## Claim C6: queue routing -/

/-- Claim C6: queue routing returns the default queue (`None`) for an
unauthenticated caller; otherwise it looks up `SERIAL:user` (serial) or
`PARALLEL:user` (parallel) in the configured mapping, falls back to the bare
username on a miss, and yields the default when both lookups miss.  Stated
for configured mappings whose queue names are nonempty (queue names are
never the empty string). -/
theorem user_queue_routing (m : List (String × String)) (u : String) (serial : Bool)
    (hvals : ∀ p ∈ m, p.2 ≠ "") :
    _get_user_queue m ⟨false, u⟩ serial = none ∧
    _get_user_queue m ⟨true, u⟩ serial =
      (match lookupQ m ((if serial then "SERIAL:" else "PARALLEL:") ++ u) with
       | some q => some q
       | none => lookupQ m u) := by
  constructor
  · rfl
  · show (if falsyQ (lookupQ m ((if serial then "SERIAL:" else "PARALLEL:") ++ u)) then
        lookupQ m u else lookupQ m ((if serial then "SERIAL:" else "PARALLEL:") ++ u)) = _
    cases hq : lookupQ m ((if serial then "SERIAL:" else "PARALLEL:") ++ u) with
    | none => simp [falsyQ]
    | some q =>
      have hmem : ((if serial then "SERIAL:" else "PARALLEL:") ++ u, q) ∈ m := by
        unfold lookupQ at hq
        cases hfind : m.find? (fun kv => kv.1 == ((if serial then "SERIAL:" else "PARALLEL:") ++ u)) with
        | none => simp [hfind] at hq
        | some kv =>
          simp only [hfind, Option.map_some] at hq
          have h1 := List.find?_some hfind
          have h2 := List.mem_of_find?_eq_some hfind
          have hk : kv.1 = (if serial then "SERIAL:" else "PARALLEL:") ++ u := by
            exact eq_of_beq h1
          have : kv = ((if serial then "SERIAL:" else "PARALLEL:") ++ u, q) := by
            cases kv with
            | mk a b => simp_all
          rw [this] at h2
          exact h2
      have hne : q ≠ "" := hvals _ hmem
      simp [falsyQ, hne]

/-- Witness for `user_queue_routing` at a concrete routing table. -/
theorem user_queue_routing_witness :
    _get_user_queue [("SERIAL:alice", "q-serial"), ("alice", "q-plain")] ⟨false, "alice"⟩ true = none ∧
    _get_user_queue [("SERIAL:alice", "q-serial"), ("alice", "q-plain")] ⟨true, "alice"⟩ true =
      (match lookupQ [("SERIAL:alice", "q-serial"), ("alice", "q-plain")] ((if true then "SERIAL:" else "PARALLEL:") ++ "alice") with
       | some q => some q
       | none => lookupQ [("SERIAL:alice", "q-serial"), ("alice", "q-plain")] "alice") :=
  user_queue_routing [("SERIAL:alice", "q-serial"), ("alice", "q-plain")] "alice" true
    (by decide)

/-! ## Claim C7: forced serial (overwrite) execution -/

/-- Claim C7: serial (overwrite) execution is required exactly when the caller
is authenticated, in the privileged set and the global force-overwrite flag is
on, or when the payload itself carries a truthy `overwrite_from_index`; an
unauthenticated caller is never force-overwritten. -/
theorem force_overwrite_condition (privileged : List String) (forceFlag : Bool)
    (auth : Bool) (u : String) (payloadOverwrite : Bool) :
    (overwrite_from_index privileged forceFlag ⟨auth, u⟩ payloadOverwrite = true ↔
      ((auth = true ∧ u ∈ privileged ∧ forceFlag = true) ∨ payloadOverwrite = true)) ∧
    _should_force_overwrite privileged forceFlag ⟨false, u⟩ = false := by
  refine ⟨?_, rfl⟩
  cases auth
  · simp [overwrite_from_index, _should_force_overwrite]
  · simp [overwrite_from_index, _should_force_overwrite]

/-! ## Store and history lemmas -/

theorem countPair_cons_self (p : String × String) (l : List (String × String)) :
    countPair p (p :: l) = countPair p l + 1 := by
  simp [countPair, List.countP_cons]

theorem countPair_cons_of_ne (p q : String × String) (l : List (String × String))
    (h : q ≠ p) : countPair p (q :: l) = countPair p l := by
  simp [countPair, List.countP_cons, h]

theorem sget_cons (p : Nat × ModelRequest) (rest : Store) (rid : Nat) :
    sget (p :: rest) rid = if p.1 == rid then some p.2 else sget rest rid := by
  by_cases h : (p.1 == rid) = true
  · simp [sget, List.find?_cons, h]
  · simp [sget, List.find?_cons, h]

theorem sset_cons (p : Nat × ModelRequest) (rest : Store) (rid : Nat) (r : ModelRequest) :
    sset (p :: rest) rid r = (if p.1 == rid then (rid, r) else p) :: sset rest rid r := rfl

theorem sset_of_not_mem (rest : Store) (rid : Nat) (r : ModelRequest)
    (h : rid ∉ rest.map Prod.fst) : sset rest rid r = rest := by
  induction rest with
  | nil => rfl
  | cons q tail ih =>
    simp only [List.map_cons, List.mem_cons, not_or] at h
    rw [sset_cons, if_neg (fun hc => h.1 ((eq_of_beq hc).symm)), ih h.2]

theorem sset_keys (store : Store) (rid : Nat) (r : ModelRequest) :
    (sset store rid r).map Prod.fst = store.map Prod.fst := by
  induction store with
  | nil => rfl
  | cons p rest ih =>
    rw [sset_cons, List.map_cons, List.map_cons, ih]
    by_cases hp : (p.1 == rid) = true
    · rw [if_pos hp, eq_of_beq hp]
    · rw [if_neg hp]

theorem sget_sset (store : Store) (rid : Nat) (r' : ModelRequest)
    (h : (sget store rid).isSome) : sget (sset store rid r') rid = some r' := by
  induction store with
  | nil => simp [sget] at h
  | cons p rest ih =>
    rw [sset_cons, sget_cons]
    by_cases hp : (p.1 == rid) = true
    · rw [if_pos hp]
      simp
    · rw [if_neg hp, if_neg hp]
      rw [sget_cons, if_neg hp] at h
      exact ih h

theorem sset_self (store : Store) (rid : Nat) (r : ModelRequest)
    (hr : sget store rid = some r) (hnodup : (store.map Prod.fst).Nodup) :
    sset store rid r = store := by
  induction store with
  | nil => simp [sget] at hr
  | cons p rest ih =>
    rw [sget_cons] at hr
    simp only [List.map_cons, List.nodup_cons] at hnodup
    rw [sset_cons]
    by_cases hp : (p.1 == rid) = true
    · rw [if_pos hp] at hr ⊢
      simp only [Option.some.injEq] at hr
      have h1 : p.1 = rid := eq_of_beq hp
      have htail : sset rest rid r = rest :=
        sset_of_not_mem rest rid r (h1 ▸ hnodup.1)
      rw [htail, ← h1, ← hr]
    · rw [if_neg hp] at hr ⊢
      rw [ih hr hnodup.2]

/-! ## Evaluating `patch_request` on a state-only payload -/

theorem validateValues_statePayload (S R : String)
    (hS' : (S == "") = false) (hR' : (R == "") = false) :
    validateValues (statePatchPayload S R) = .ok () := by
  simp [validateValues, validatePatchValue, statePatchPayload, hS', hR']

theorem filter_statePayload (S R : String) :
    List.filter (fun kv => !(mutableKeys.contains kv.1)) (statePatchPayload S R)
      = ([] : PatchPayload) := rfl

theorem checkStatePair_statePayload (S R : String) :
    checkStatePair (statePatchPayload S R) = .ok () := rfl

theorem applyImages_statePayload (r : ModelRequest) (S R : String) :
    applyImages r (statePatchPayload S R) = r := rfl

theorem applyArches_statePayload (r : ModelRequest) (S R : String) :
    applyArches r (statePatchPayload S R) = r := rfl

theorem applyBundleMapping_statePayload (r : ModelRequest) (S R : String) :
    applyBundleMapping r (statePatchPayload S R) = r := rfl

theorem applyStatePatch_statePayload (r : ModelRequest) (S R : String) :
    applyStatePatch r (statePatchPayload S R) =
      (match validate_state S with
       | .error e => .error e
       | .ok _ =>
         if r.hist.current = (S, R) then .ok (r, false)
         else
           match add_state r.hist S R with
           | .error e => .error e
           | .ok (h, _) => .ok ({ r with hist := h }, true)) := rfl

theorem validate_state_ok (S : String) (hS : S ∈ validStates) :
    validate_state S = .ok () := by
  simp [validate_state, hS]

/-- Evaluating `patch_request` on a state-only payload whose pair equals the request's
current entry: no state is added, nothing changes, no notification. -/
theorem patch_identical (workers : List String) (u : String) (store : Store)
    (rid : Nat) (r : ModelRequest) (S R : String)
    (hu : u ∈ workers) (hr : sget store rid = some r)
    (hnodup : (store.map Prod.fst).Nodup)
    (hS : S ∈ validStates) (hSne : S ≠ "") (hRne : R ≠ "")
    (heq : r.hist.current = (S, R)) :
    patch_request workers ⟨true, u⟩ (some (statePatchPayload S R)) store rid
      = .ok (store, false) := by
  have hS' : (S == "") = false := by simp [hSne]
  have hR' : (R == "") = false := by simp [hRne]
  unfold patch_request
  rw [if_neg (by simp [hu])]
  rw [hr]
  simp only []
  rw [filter_statePayload, validateValues_statePayload S R hS' hR',
    checkStatePair_statePayload, applyStatePatch_statePayload,
    validate_state_ok S hS]
  simp only [List.map_nil, List.isEmpty_nil, Bool.not_true, Bool.false_eq_true, if_false]
  rw [if_pos heq]
  simp only [applyImages_statePayload, applyArches_statePayload,
    applyBundleMapping_statePayload]
  rw [sset_self store rid r hr hnodup]
  rw [show List.isEmpty (statePatchPayload S R) = false from rfl]
  simp only [Bool.false_eq_true, if_false]

/-- Evaluating `patch_request` on a state-only payload whose pair differs from the
request's current entry, from a non-terminal state: the new entry is appended
and a notification is flagged. -/
theorem patch_different (workers : List String) (u : String) (store : Store)
    (rid : Nat) (r : ModelRequest) (S R : String)
    (hu : u ∈ workers) (hr : sget store rid = some r)
    (hS : S ∈ validStates) (hSne : S ≠ "") (hRne : R ≠ "")
    (hne : r.hist.current ≠ (S, R)) (hterm : r.hist.current.1 ∉ terminalStates) :
    patch_request workers ⟨true, u⟩ (some (statePatchPayload S R)) store rid
      = .ok (sset store rid { r with hist := ⟨(S, R), r.hist.current :: r.hist.older⟩ }, true) := by
  have hS' : (S == "") = false := by simp [hSne]
  have hR' : (R == "") = false := by simp [hRne]
  have hadd : add_state r.hist S R = .ok (⟨(S, R), r.hist.current :: r.hist.older⟩, true) := by
    unfold add_state
    rw [if_pos hS, if_neg hne, if_neg hterm]
  unfold patch_request
  rw [if_neg (by simp [hu])]
  rw [hr]
  simp only []
  rw [filter_statePayload, validateValues_statePayload S R hS' hR',
    checkStatePair_statePayload, applyStatePatch_statePayload,
    validate_state_ok S hS]
  simp only [List.map_nil, List.isEmpty_nil, Bool.not_true, Bool.false_eq_true, if_false]
  rw [if_neg hne, hadd]
  simp only [applyImages_statePayload, applyArches_statePayload,
    applyBundleMapping_statePayload]
  rw [show List.isEmpty (statePatchPayload S R) = false from rfl]
  simp only [Bool.false_eq_true, if_false]

/-- Evaluating `patch_request` on a state-only payload whose pair differs from the
request's current entry, from a terminal state: `IllegalTransitionError`. -/
theorem patch_terminal_diff (workers : List String) (u : String) (store : Store)
    (rid : Nat) (r : ModelRequest) (S R : String)
    (hu : u ∈ workers) (hr : sget store rid = some r)
    (hS : S ∈ validStates) (hSne : S ≠ "") (hRne : R ≠ "")
    (hne : r.hist.current ≠ (S, R)) (hterm : r.hist.current.1 ∈ terminalStates) :
    patch_request workers ⟨true, u⟩ (some (statePatchPayload S R)) store rid
      = .error .illegalTransition := by
  have hS' : (S == "") = false := by simp [hSne]
  have hR' : (R == "") = false := by simp [hRne]
  have hadd : add_state r.hist S R = .error .illegalTransition := by
    unfold add_state
    rw [if_pos hS, if_neg hne, if_pos hterm]
  unfold patch_request
  rw [if_neg (by simp [hu])]
  rw [hr]
  simp only []
  rw [filter_statePayload, validateValues_statePayload S R hS' hR',
    checkStatePair_statePayload, applyStatePatch_statePayload,
    validate_state_ok S hS]
  simp only [List.map_nil, List.isEmpty_nil, Bool.not_true, Bool.false_eq_true, if_false]
  rw [if_neg hne, hadd]
  rw [show List.isEmpty (statePatchPayload S R) = false from rfl]
  simp only [Bool.false_eq_true, if_false]

/-! ## Claim C3: idempotent state patches and notifications -/

/-- Claim C3: patching a request with a `(state, state_reason)` pair identical
to its current entry appends no history entry and sends no notification; a
differing pair appends one entry and notifies; after two identical
applications exactly one entry exists for the pair (when it was not in the
history before); a notification is sent exactly when the state actually
changed. -/
theorem patch_state_idempotent_no_notify (workers : List String) (u : String)
    (store : Store) (rid : Nat) (r : ModelRequest) (S R : String)
    (hu : u ∈ workers) (hr : sget store rid = some r)
    (hnodup : (store.map Prod.fst).Nodup)
    (hS : S ∈ validStates) (hSne : S ≠ "") (hRne : R ≠ "") :
    (r.hist.current = (S, R) →
      patch_request workers ⟨true, u⟩ (some (statePatchPayload S R)) store rid
        = .ok (store, false)) ∧
    (r.hist.current ≠ (S, R) → r.hist.current.1 ∉ terminalStates →
      ∃ st',
        patch_request workers ⟨true, u⟩ (some (statePatchPayload S R)) store rid
          = .ok (st', true) ∧
        sget st' rid = some { r with hist := ⟨(S, R), r.hist.current :: r.hist.older⟩ } ∧
        (countPair (S, R) r.hist.entries = 0 →
          countPair (S, R) (StateHist.mk (S, R) (r.hist.current :: r.hist.older)).entries = 1) ∧
        patch_request workers ⟨true, u⟩ (some (statePatchPayload S R)) st' rid
          = .ok (st', false)) ∧
    (∀ st' b,
      patch_request workers ⟨true, u⟩ (some (statePatchPayload S R)) store rid
        = .ok (st', b) →
      (b = true ↔ r.hist.current ≠ (S, R))) := by
  refine ⟨fun heq => patch_identical workers u store rid r S R hu hr hnodup hS hSne hRne heq,
    fun hne hterm => ?_, fun st' b hb => ?_⟩
  · set r' : ModelRequest := { r with hist := ⟨(S, R), r.hist.current :: r.hist.older⟩ } with hr'
    refine ⟨sset store rid r',
      patch_different workers u store rid r S R hu hr hS hSne hRne hne hterm, ?_, ?_, ?_⟩
    · exact sget_sset store rid r' (by rw [hr]; rfl)
    · intro h0
      simp only [StateHist.entries] at h0 ⊢
      rw [countPair_cons_self]
      rw [countPair_cons_of_ne _ _ _ hne] at h0 ⊢
      omega
    · have hget : sget (sset store rid r') rid = some r' :=
        sget_sset store rid r' (by rw [hr]; rfl)
      have hnd : ((sset store rid r').map Prod.fst).Nodup := by
        rw [sset_keys]; exact hnodup
      exact patch_identical workers u (sset store rid r') rid r' S R hu hget hnd hS hSne hRne rfl
  · by_cases heq : r.hist.current = (S, R)
    · rw [patch_identical workers u store rid r S R hu hr hnodup hS hSne hRne heq] at hb
      simp only [Except.ok.injEq, Prod.mk.injEq] at hb
      constructor
      · intro hbt; exact absurd (hb.2.trans hbt) (by simp)
      · intro hcontra; exact absurd heq hcontra
    · by_cases hterm : r.hist.current.1 ∈ terminalStates
      · rw [patch_terminal_diff workers u store rid r S R hu hr hS hSne hRne heq hterm] at hb
        exact absurd hb (by simp)
      · rw [patch_different workers u store rid r S R hu hr hS hSne hRne heq hterm] at hb
        simp only [Except.ok.injEq, Prod.mk.injEq] at hb
        exact ⟨fun _ => heq, fun _ => hb.2.symm⟩

/-- Witness for `patch_state_idempotent_no_notify` at a concrete request. -/
theorem patch_state_idempotent_no_notify_witness :
    let r : ModelRequest := ⟨⟨("in_progress", "init"), []⟩, [], [], []⟩
    let store : Store := [(1, r)]
    (r.hist.current = ("complete", "done") →
      patch_request ["worker"] ⟨true, "worker"⟩ (some (statePatchPayload "complete" "done")) store 1
        = .ok (store, false)) ∧
    (r.hist.current ≠ ("complete", "done") → r.hist.current.1 ∉ terminalStates →
      ∃ st',
        patch_request ["worker"] ⟨true, "worker"⟩ (some (statePatchPayload "complete" "done")) store 1
          = .ok (st', true) ∧
        sget st' 1 = some { r with hist := ⟨("complete", "done"), r.hist.current :: r.hist.older⟩ } ∧
        (countPair ("complete", "done") r.hist.entries = 0 →
          countPair ("complete", "done")
            (StateHist.mk ("complete", "done") (r.hist.current :: r.hist.older)).entries = 1) ∧
        patch_request ["worker"] ⟨true, "worker"⟩ (some (statePatchPayload "complete" "done")) st' 1
          = .ok (st', false)) ∧
    (∀ st' b,
      patch_request ["worker"] ⟨true, "worker"⟩ (some (statePatchPayload "complete" "done")) store 1
        = .ok (st', b) →
      (b = true ↔ r.hist.current ≠ ("complete", "done"))) :=
  patch_state_idempotent_no_notify ["worker"] "worker" [(1, ⟨⟨("in_progress", "init"), []⟩, [], [], []⟩)]
    1 ⟨⟨("in_progress", "init"), []⟩, [], [], []⟩ "complete" "done"
    (by decide) rfl (by decide) (by decide) (by decide) (by decide)

/-! ## Claim C5: terminal states are locked -/

/-- Claim C5: once a request is in a terminal state (`complete` or `failed`),
patching it with any different `(state, state_reason)` pair — in particular
any different state — fails with `IllegalTransitionError`; only the
idempotent repeat of the very same terminal entry is permitted (as a no-op). -/
theorem terminal_state_locked (workers : List String) (u : String)
    (store : Store) (rid : Nat) (r : ModelRequest) (S R : String)
    (hu : u ∈ workers) (hr : sget store rid = some r)
    (hnodup : (store.map Prod.fst).Nodup)
    (hS : S ∈ validStates) (hSne : S ≠ "") (hRne : R ≠ "")
    (hterm : r.hist.current.1 ∈ terminalStates) :
    ((S, R) ≠ r.hist.current →
      patch_request workers ⟨true, u⟩ (some (statePatchPayload S R)) store rid
        = .error .illegalTransition) ∧
    (r.hist.current = (S, R) →
      patch_request workers ⟨true, u⟩ (some (statePatchPayload S R)) store rid
        = .ok (store, false)) := by
  constructor
  · intro hne
    exact patch_terminal_diff workers u store rid r S R hu hr hS hSne hRne
      (fun h => hne h.symm) hterm
  · intro heq
    exact patch_identical workers u store rid r S R hu hr hnodup hS hSne hRne heq

/-- Witness for `terminal_state_locked` at a concrete completed request. -/
theorem terminal_state_locked_witness :
    let r : ModelRequest := ⟨⟨("complete", "done"), [("in_progress", "init")]⟩, [], [], []⟩
    let store : Store := [(7, r)]
    ((("failed", "oops") ≠ r.hist.current →
      patch_request ["worker"] ⟨true, "worker"⟩ (some (statePatchPayload "failed" "oops")) store 7
        = .error .illegalTransition) ∧
    (r.hist.current = ("failed", "oops") →
      patch_request ["worker"] ⟨true, "worker"⟩ (some (statePatchPayload "failed" "oops")) store 7
        = .ok (store, false))) :=
  terminal_state_locked ["worker"] "worker"
    [(7, ⟨⟨("complete", "done"), [("in_progress", "init")]⟩, [], [], []⟩)] 7
    ⟨⟨("complete", "done"), [("in_progress", "init")]⟩, [], [], []⟩ "failed" "oops"
    (by decide) rfl (by decide) (by decide) (by decide) (by decide) (by decide)

/-! ## Error shapes of the patch stages -/

theorem validatePatchValue_error_shape (k : String) (v : PatchVal) (e : PatchError)
    (h : validatePatchValue k v = .error e) : ∃ m, e = .validationError m := by
  cases v <;>
    (unfold validatePatchValue at h
     simp only [] at h
     split_ifs at h <;>
      first
        | exact Except.noConfusion h
        | (simp only [Except.error.injEq] at h
           exact ⟨_, h.symm⟩))

theorem validateValues_error_shape (kvs : PatchPayload) (e : PatchError)
    (h : validateValues kvs = .error e) : ∃ m, e = .validationError m := by
  induction kvs with
  | nil => simp [validateValues] at h
  | cons kv rest ih =>
    obtain ⟨k, v⟩ := kv
    unfold validateValues at h
    cases hv : validatePatchValue k v with
    | error e' =>
      rw [hv] at h
      simp only [Except.error.injEq] at h
      obtain ⟨m, hm⟩ := validatePatchValue_error_shape k v e' hv
      exact ⟨m, h ▸ hm⟩
    | ok _ =>
      rw [hv] at h
      exact ih h

theorem checkStatePair_error_shape (kvs : PatchPayload) (e : PatchError)
    (h : checkStatePair kvs = .error e) : ∃ m, e = .validationError m := by
  unfold checkStatePair at h
  split_ifs at h <;>
    first
      | exact Except.noConfusion h
      | (simp only [Except.error.injEq] at h
         exact ⟨_, h.symm⟩)

theorem add_state_error_shape (hh : StateHist) (s reason : String) (e : PatchError)
    (h : add_state hh s reason = .error e) :
    e = .invalidState ∨ e = .illegalTransition := by
  unfold add_state at h
  split_ifs at h <;>
    first
      | exact Except.noConfusion h
      | (simp only [Except.error.injEq] at h
         first
           | exact Or.inl h.symm
           | exact Or.inr h.symm)

theorem applyStatePatch_error_shape (r : ModelRequest) (kvs : PatchPayload)
    (e : PatchError) (h : applyStatePatch r kvs = .error e) :
    e = .invalidState ∨ e = .illegalTransition ∨ ∃ m, e = .validationError m := by
  unfold applyStatePatch at h
  split at h
  · rename_i s reason _ _
    cases hv : validate_state s with
    | error e' =>
      rw [hv] at h
      simp only [Except.error.injEq] at h
      unfold validate_state at hv
      split_ifs at hv
      simp only [Except.error.injEq] at hv
      exact Or.inr (Or.inr ⟨_, h ▸ hv.symm⟩)
    | ok _ =>
      rw [hv] at h
      simp only [] at h
      split_ifs at h
      cases ha : add_state r.hist s reason with
      | error e' =>
        rw [ha] at h
        simp only [Except.error.injEq] at h
        rcases add_state_error_shape r.hist s reason e' ha with h1 | h1
        · exact Or.inl (h ▸ h1)
        · exact Or.inr (Or.inl (h ▸ h1))
      | ok p =>
        rw [ha] at h
        exact absurd h (by simp)
  · exact absurd h (by simp)

/-! ## Claim C9: the state pair comes both-or-neither -/

theorem checkStatePair_xor_error (kvs : PatchPayload)
    (hx : (pget kvs "state").isSome ≠ (pget kvs "state_reason").isSome) :
    ∃ m, checkStatePair kvs = .error (.validationError m) := by
  unfold checkStatePair
  cases hs : (pget kvs "state").isSome <;> cases hrr : (pget kvs "state_reason").isSome
  · exact absurd (hs.trans hrr.symm) hx
  · exact ⟨"The \"state\" key is required when \"state_reason\" is supplied", by simp⟩
  · exact ⟨"The \"state_reason\" key is required when \"state\" is supplied", by simp⟩
  · exact absurd (hs.trans hrr.symm) hx

/-- Claim C9: a patch payload supplying exactly one of the keys `state` and
`state_reason` is rejected with a `ValidationError` (for an authorized worker
and an existing request; the pair must come both-or-neither). -/
theorem state_pair_required (workers : List String) (u : String) (store : Store)
    (rid : Nat) (r : ModelRequest) (kvs : PatchPayload)
    (hu : u ∈ workers) (hr : sget store rid = some r)
    (hxor : (pget kvs "state").isSome ≠ (pget kvs "state_reason").isSome) :
    ∃ msg, patch_request workers ⟨true, u⟩ (some kvs) store rid
      = .error (.validationError msg) := by
  have hne : kvs.isEmpty = false := by
    cases kvs with
    | nil => exact absurd rfl hxor
    | cons _ _ => rfl
  unfold patch_request
  rw [if_neg (by simp [hu])]
  simp only []
  rw [hr, hne]
  simp only [Bool.false_eq_true, if_false]
  split
  · exact ⟨_, rfl⟩
  · cases hval : validateValues kvs with
    | error e =>
      obtain ⟨m, hm⟩ := validateValues_error_shape kvs e hval
      exact ⟨m, by rw [hm]⟩
    | ok _ =>
      obtain ⟨m, hm⟩ := checkStatePair_xor_error kvs hxor
      rw [hm]
      exact ⟨m, rfl⟩

/-- Witness for `state_pair_required` at a concrete payload supplying only
`state`. -/
theorem state_pair_required_witness :
    ∃ msg,
      patch_request ["worker"] ⟨true, "worker"⟩ (some [("state", .pstr "complete")])
        [(1, ⟨⟨("in_progress", "init"), []⟩, [], [], []⟩)] 1
        = .error (.validationError msg) :=
  state_pair_required ["worker"] "worker"
    [(1, ⟨⟨("in_progress", "init"), []⟩, [], [], []⟩)] 1
    ⟨⟨("in_progress", "init"), []⟩, [], [], []⟩
    [("state", .pstr "complete")] (by decide) rfl (by decide)

/-! ## Claim C10: worker-only patching -/

/-- Claim C10: an authenticated caller whose username is not in the
configured worker set gets `Forbidden` from `patch_request` regardless of the
payload, the store and the request id (so before reading the payload or the
request, changing no request); when auth is disabled (unauthenticated caller)
the patch is never rejected with `Forbidden`. -/
theorem patch_forbidden_for_non_worker (workers : List String) (u : String)
    (hu : u ∉ workers) :
    (∀ payload store rid,
      patch_request workers ⟨true, u⟩ payload store rid
        = .error (.forbidden "This API endpoint is restricted to IIB workers")) ∧
    (∀ payload store rid msg,
      patch_request workers ⟨false, u⟩ payload store rid ≠ .error (.forbidden msg)) := by
  constructor
  · intro payload store rid
    unfold patch_request
    rw [if_pos (by exact ⟨rfl, hu⟩)]
  · intro payload store rid msg h
    unfold patch_request at h
    rw [if_neg (by simp)] at h
    cases payload with
    | none => exact absurd h (by simp)
    | some kvs =>
      simp only [] at h
      by_cases hemp : kvs.isEmpty = true
      · rw [if_pos hemp] at h
        exact absurd h (by simp)
      · rw [if_neg hemp] at h
        cases hs : sget store rid with
        | none =>
          rw [hs] at h
          simp only [] at h
          exact absurd h (by simp)
        | some r =>
          rw [hs] at h
          simp only [] at h
          by_cases hinv : (!(List.map (fun kv => kv.1)
              (List.filter (fun kv => !(mutableKeys.contains kv.1)) kvs)).isEmpty) = true
          · rw [if_pos hinv] at h
            exact absurd h (by simp)
          · rw [if_neg hinv] at h
            cases hvv : validateValues kvs with
            | error e =>
              rw [hvv] at h
              simp only [] at h
              obtain ⟨m, hm⟩ := validateValues_error_shape _ _ hvv
              rw [hm] at h
              exact absurd h (by simp)
            | ok un =>
              rw [hvv] at h
              simp only [] at h
              cases hcp : checkStatePair kvs with
              | error e =>
                rw [hcp] at h
                simp only [] at h
                obtain ⟨m, hm⟩ := checkStatePair_error_shape _ _ hcp
                rw [hm] at h
                exact absurd h (by simp)
              | ok un2 =>
                rw [hcp] at h
                simp only [] at h
                cases hap : applyStatePatch r kvs with
                | error e =>
                  rw [hap] at h
                  simp only [] at h
                  rcases applyStatePatch_error_shape _ _ _ hap with h1 | h1 | ⟨m, h1⟩ <;>
                    (rw [h1] at h; exact absurd h (by simp))
                | ok rb =>
                  obtain ⟨r1, b⟩ := rb
                  rw [hap] at h
                  exact absurd h (by simp)

/-- Witness for `patch_forbidden_for_non_worker` at a concrete non-worker
caller. -/
theorem patch_forbidden_for_non_worker_witness :
    patch_request ["worker"] ⟨true, "eve"⟩ none [] 0
      = .error (.forbidden "This API endpoint is restricted to IIB workers") ∧
    patch_request ["worker"] ⟨false, "eve"⟩ none [] 0 ≠ .error (.forbidden "nope") :=
  ⟨(patch_forbidden_for_non_worker ["worker"] "eve" (by decide)).1 none [] 0,
   (patch_forbidden_for_non_worker ["worker"] "eve" (by decide)).2 none [] 0 "nope"⟩

/-! ## Batch build lemmas -/

theorem isErr_error_iff {ε α : Type} (x : Except ε α) :
    isErr x = true ↔ ∃ e, x = .error e := by
  cases x <;> simp [isErr]

theorem isErr_ok_iff {ε α : Type} (x : Except ε α) :
    isErr x = false ↔ ∃ v, x = .ok v := by
  cases x <;> simp [isErr]

theorem findIdx_of_first {α : Type} (p : α → Bool) (l : List α) (k : Nat)
    (hk : k < l.length)
    (hbefore : ∀ j, (hj : j < k) → p l[j] = false)
    (hp : p l[k] = true) :
    l.findIdx p = k := by
  induction l generalizing k with
  | nil => exact absurd hk (by simp)
  | cons a rest ih =>
    cases k with
    | zero =>
      simp only [List.getElem_cons_zero] at hp
      rw [List.findIdx_cons, hp]
      rfl
    | succ k =>
      have ha : p a = false := hbefore 0 (Nat.succ_pos k)
      rw [List.findIdx_cons, ha]
      have hk' : k < rest.length := by
        simpa using Nat.lt_of_succ_lt_succ hk
      have hb' : ∀ j, (hj : j < k) → p rest[j] = false := by
        intro j hj
        have := hbefore (j + 1) (Nat.succ_lt_succ hj)
        simpa using this
      have hp' : p rest[k] = true := by
        simpa using hp
      simp [ih k hk' hb' hp']

theorem buildGo_isErr_of_mem (validate : Member → Except String Variant)
    (all : List Member) (todo : List Member)
    (h : ∃ m, m ∈ todo ∧ isErr (validate m) = true) :
    isErr (buildGo validate all todo) = true := by
  induction todo with
  | nil =>
    obtain ⟨m, hm, _⟩ := h
    exact absurd hm (by simp)
  | cons m rest ih =>
    cases hv : validate m with
    | error e => simp [buildGo, hv, isErr]
    | ok v =>
      obtain ⟨x, hx, hxe⟩ := h
      rcases List.mem_cons.mp hx with hxm | hxr
      · rw [hxm, hv] at hxe
        exact absurd hxe (by simp [isErr])
      · have := ih ⟨x, hxr, hxe⟩
        cases hb : buildGo validate all rest with
        | error e => simp [buildGo, hv, hb, isErr]
        | ok vs =>
          rw [hb] at this
          exact absurd this (by simp [isErr])

theorem buildGo_first_error (validate : Member → Except String Variant)
    (all : List Member) (k : Nat) (e : String) (hk : k < all.length)
    (hbefore : ∀ j, (hj : j < k) → isErr (validate all[j]) = false)
    (hfail : validate all[k] = .error e) :
    ∀ d i, i + d = k →
      buildGo validate all (all.drop i) = .error (annotateIndex e (pyIndex all all[k])) := by
  intro d
  induction d with
  | zero =>
    intro i hi
    have hik : i = k := by omega
    subst hik
    rw [List.drop_eq_getElem_cons hk]
    simp [buildGo, hfail]
  | succ d ih =>
    intro i hi
    have hik : i < k := by omega
    have hil : i < all.length := by omega
    obtain ⟨v, hv⟩ := (isErr_ok_iff _).mp (hbefore i hik)
    rw [List.drop_eq_getElem_cons hil]
    have hrec := ih (i + 1) (by omega)
    simp [buildGo, hv, hrec]

theorem pyIndex_first_fail (validate : Member → Except String Variant)
    (all : List Member) (k : Nat) (hk : k < all.length)
    (hbefore : ∀ j, (hj : j < k) → isErr (validate all[j]) = false)
    (hfail : isErr (validate all[k]) = true) :
    pyIndex all all[k] = k := by
  apply findIdx_of_first _ all k hk
  · intro j hj
    have hne : all[j] ≠ all[k] := by
      intro hcontra
      have hb := hbefore j hj
      rw [hcontra] at hb
      rw [hb] at hfail
      exact absurd hfail (by simp)
    simp [hne]
  · simp

/-! ## Claim C2: batch validation is atomic -/

/-- Claim C2: in either batch endpoint (the member loop `buildGo`
instantiated with `classify_member` for `add_rm_batch` and `regen_classify`
for `regenerate_bundle_batch`), if the member at any index `k` fails
validation, the batch build raises a `ValidationError` — annotated with the
failing member's zero-based index when `k` is the first failing index — and
zero requests from the batch are persisted, regardless of `k`. -/
theorem batch_member_validation_aborts (validate : Member → Except String Variant)
    (members : List Member) (prior : List StateHist) (k : Nat)
    (hk : k < members.length)
    (hfail : isErr (validate members[k]) = true) :
    isErr (buildGo validate members members) = true ∧
    buildPersisted validate prior members = prior ∧
    ((∀ j, (hj : j < k) → isErr (validate members[j]) = false) →
      ∃ e, validate members[k] = .error e ∧
        buildGo validate members members = .error (annotateIndex e k)) := by
  have h1 : isErr (buildGo validate members members) = true :=
    buildGo_isErr_of_mem validate members members ⟨members[k], List.getElem_mem hk, hfail⟩
  refine ⟨h1, ?_, ?_⟩
  · unfold buildPersisted
    cases hb : buildGo validate members members with
    | error e => rfl
    | ok vs =>
      rw [hb] at h1
      exact absurd h1 (by simp [isErr])
  · intro hfirst
    obtain ⟨e, he⟩ := (isErr_error_iff _).mp hfail
    refine ⟨e, he, ?_⟩
    have := buildGo_first_error validate members k e hk hfirst he k 0 (by omega)
    rw [List.drop_zero] at this
    rw [this, pyIndex_first_fail validate members k hk hfirst hfail]

/-- Witness for `batch_member_validation_aborts`: an `add_rm_batch` whose
second member is invalid (neither `operators` nor `bundles`). -/
theorem batch_member_validation_aborts_witness :
    isErr (buildGo classify_member cexBatch cexBatch) = true ∧
    buildPersisted classify_member [initialState] cexBatch = [initialState] ∧
    ((∀ j, (hj : j < 1) →
        isErr (classify_member (cexBatch.get ⟨j, by have h2 : cexBatch.length = 2 := rfl; omega⟩)) = false) →
      ∃ e,
        classify_member (cexBatch.get ⟨1, by have h2 : cexBatch.length = 2 := rfl; omega⟩) = .error e ∧
        buildGo classify_member cexBatch cexBatch = .error (annotateIndex e 1)) :=
  batch_member_validation_aborts classify_member cexBatch [initialState] 1
    (by decide) (by decide)

/-! ## Claim C8: member variant discrimination -/

/-- Counterexample to claim C8 as stated: a member with BOTH `operators` and
`bundles` present (ambiguous) is not rejected with a `ValidationError`;
`add_rm_batch` silently builds it as the remove variant, because the
discrimination (api_v1.py lines 517-522) tests `operators` first. -/
theorem ambiguous_member_not_rejected_cex :
    (mget ambiguousMember "operators").isSome = true ∧
    (mget ambiguousMember "bundles").isSome = true ∧
    classify_member ambiguousMember = .ok .rm ∧
    add_rm_batch_build [ambiguousMember] = .ok [.rm] :=
  ⟨rfl, rfl, rfl, rfl⟩

/-- Claim C8 (amended): a member whose `operators` field is truthy is built
as the remove variant even when `bundles` is also present; otherwise a truthy
`bundles` field yields the add variant; only a member with neither field
truthy (absent, or present-but-falsy) fails, with a `ValidationError`
identifying the member's index in the list (when it is the first failing
member). -/
theorem member_variant_discrimination (m : Member) (members : List Member) (k : Nat)
    (hk : k < members.length) :
    (jtruthy (mget m "operators") = true → rm_from_json m = .ok () →
      classify_member m = .ok .rm) ∧
    (jtruthy (mget m "operators") = false → jtruthy (mget m "bundles") = true →
      add_from_json m = .ok () → classify_member m = .ok .add) ∧
    (jtruthy (mget m "operators") = false → jtruthy (mget m "bundles") = false →
      classify_member m = .error "Build request is not a valid Add/Rm request.") ∧
    (jtruthy (mget members[k] "operators") = false →
      jtruthy (mget members[k] "bundles") = false →
      (∀ j, (hj : j < k) → isErr (classify_member members[j]) = false) →
      add_rm_batch_build members
        = .error (annotateIndex "Build request is not a valid Add/Rm request." k)) := by
  have hclassify : ∀ x : Member, jtruthy (mget x "operators") = false →
      jtruthy (mget x "bundles") = false →
      classify_member x = .error "Build request is not a valid Add/Rm request." := by
    intro x h1 h2
    unfold classify_member
    rw [if_neg (by simp [h1]), if_neg (by simp [h2])]
  refine ⟨?_, ?_, hclassify m, ?_⟩
  · intro h1 h2
    unfold classify_member
    rw [if_pos h1, h2]
  · intro h1 h2 h3
    unfold classify_member
    rw [if_neg (by simp [h1]), if_pos h2, h3]
  · intro h1 h2 hfirst
    have hcl := hclassify members[k] h1 h2
    have hrun := buildGo_first_error classify_member members k
      "Build request is not a valid Add/Rm request." hk hfirst hcl k 0 (by omega)
    rw [List.drop_zero] at hrun
    unfold add_rm_batch_build
    rw [hrun, pyIndex_first_fail classify_member members k hk hfirst (by rw [hcl]; rfl)]

/-- Witness for `member_variant_discrimination` at the concrete two-member
batch whose second member is invalid. -/
theorem member_variant_discrimination_witness :
    (jtruthy (mget ambiguousMember "operators") = true →
      rm_from_json ambiguousMember = .ok () →
      classify_member ambiguousMember = .ok .rm) ∧
    (jtruthy (mget ambiguousMember "operators") = false →
      jtruthy (mget ambiguousMember "bundles") = true →
      add_from_json ambiguousMember = .ok () →
      classify_member ambiguousMember = .ok .add) ∧
    (jtruthy (mget ambiguousMember "operators") = false →
      jtruthy (mget ambiguousMember "bundles") = false →
      classify_member ambiguousMember = .error "Build request is not a valid Add/Rm request.") ∧
    (jtruthy (mget (cexBatch.get ⟨1, by have h2 : cexBatch.length = 2 := rfl; omega⟩) "operators") = false →
      jtruthy (mget (cexBatch.get ⟨1, by have h2 : cexBatch.length = 2 := rfl; omega⟩) "bundles") = false →
      (∀ j, (hj : j < 1) →
        isErr (classify_member (cexBatch.get ⟨j, by have h2 : cexBatch.length = 2 := rfl; omega⟩)) = false) →
      add_rm_batch_build cexBatch
        = .error (annotateIndex "Build request is not a valid Add/Rm request." 1)) :=
  member_variant_discrimination ambiguousMember cexBatch 1 (by decide)

/-! ## Dispatch lemmas -/

theorem markFailed_eq_of_add (r : BReq) (h : StateHist) (b : Bool)
    (ha : add_state r.hist "failed" brokerFailureReason = .ok (h, b)) :
    markFailed r = { r with hist := h } := by
  unfold markFailed
  rw [ha]

theorem markFailed_eq_of_err (r : BReq) (e : PatchError)
    (ha : add_state r.hist "failed" brokerFailureReason = .error e) :
    markFailed r = r := by
  unfold markFailed
  rw [ha]

theorem markFailed_rid (r : BReq) : (markFailed r).rid = r.rid := by
  unfold markFailed
  split <;> rfl

theorem add_state_ok_current (hh : StateHist) (s reason : String) (h' : StateHist)
    (b : Bool) (h : add_state hh s reason = .ok (h', b)) : h'.current = (s, reason) := by
  unfold add_state at h
  split_ifs at h with h1 h2 h3
  · simp only [Except.ok.injEq, Prod.mk.injEq] at h
    rw [← h.1, h2]
  · simp only [Except.ok.injEq, Prod.mk.injEq] at h
    rw [← h.1]

theorem markFailed_idem (r : BReq) : markFailed (markFailed r) = markFailed r := by
  cases ha : add_state r.hist "failed" brokerFailureReason with
  | error e =>
    rw [markFailed_eq_of_err r e ha, markFailed_eq_of_err r e ha]
  | ok p =>
    obtain ⟨h, b⟩ := p
    rw [markFailed_eq_of_add r h b ha]
    have hcur : h.current = ("failed", brokerFailureReason) :=
      add_state_ok_current r.hist "failed" brokerFailureReason h b ha
    have hstep : add_state h "failed" brokerFailureReason = .ok (h, false) := by
      unfold add_state
      rw [if_pos (by decide), if_pos hcur]
    exact markFailed_eq_of_add { r with hist := h } h false hstep

theorem markFailed_fresh (r : BReq) (h : r.hist.current.1 = "in_progress") :
    markFailed r
      = ⟨r.rid, ⟨("failed", brokerFailureReason), r.hist.current :: r.hist.older⟩⟩ := by
  have ha : add_state r.hist "failed" brokerFailureReason
      = .ok (⟨("failed", brokerFailureReason), r.hist.current :: r.hist.older⟩, true) := by
    unfold add_state
    rw [if_pos (by decide), if_neg ?hne, if_neg ?hterm]
    case hne =>
      intro hc
      rw [hc] at h
      exact absurd h (by decide)
    case hterm =>
      rw [h]
      decide
  rw [markFailed_eq_of_add r _ _ ha]

theorem markUnprocessed_cons (processed : List Nat) (r : BReq) (rest : List BReq) :
    markUnprocessed processed (r :: rest)
      = (if r.rid ∈ processed then r else markFailed r) :: markUnprocessed processed rest := rfl

theorem markUnprocessed_append (processed : List Nat) (a b : List BReq) :
    markUnprocessed processed (a ++ b)
      = markUnprocessed processed a ++ markUnprocessed processed b := by
  unfold markUnprocessed
  exact List.map_append _ a b

theorem markUnprocessed_congr (p1 p2 : List Nat) (reqs : List BReq)
    (h : ∀ x ∈ reqs, x.rid ∈ p1 ↔ x.rid ∈ p2) :
    markUnprocessed p1 reqs = markUnprocessed p2 reqs := by
  unfold markUnprocessed
  apply List.map_congr_left
  intro x hx
  by_cases hm : x.rid ∈ p1
  · rw [if_pos hm, if_pos ((h x hx).mp hm)]
  · rw [if_neg hm, if_neg (fun hc => hm ((h x hx).mpr hc))]

theorem markUnprocessed_eq_self (processed : List Nat) (reqs : List BReq)
    (h : ∀ x ∈ reqs, x.rid ∉ processed → markFailed x = x) :
    markUnprocessed processed reqs = reqs := by
  have heq : reqs.map (fun r => if r.rid ∈ processed then r else markFailed r)
      = reqs.map id := by
    apply List.map_congr_left
    intro x hx
    by_cases hm : x.rid ∈ processed
    · rw [if_pos hm]; rfl
    · rw [if_neg hm]; exact h x hx hm
  unfold markUnprocessed
  rw [heq, List.map_id]

theorem markUnprocessed_nil_processed (reqs : List BReq) :
    markUnprocessed [] reqs = reqs.map markFailed := by
  unfold markUnprocessed
  apply List.map_congr_left
  intro x _
  rw [if_neg (List.not_mem_nil x.rid)]

/-- Marking with the ids of the first `k` requests as processed marks exactly
the suffix from position `k` on, once, provided the request ids are distinct. -/
theorem markUnprocessed_take (reqs : List BReq) (k : Nat)
    (hnodup : (reqs.map BReq.rid).Nodup) :
    markUnprocessed ((reqs.map BReq.rid).take k) reqs
      = reqs.take k ++ (reqs.drop k).map markFailed := by
  induction reqs generalizing k with
  | nil => simp [markUnprocessed]
  | cons r rest ih =>
    cases k with
    | zero =>
      simp only [List.take_zero, List.drop_zero, List.nil_append]
      exact markUnprocessed_nil_processed (r :: rest)
    | succ k =>
      simp only [List.map_cons, List.nodup_cons] at hnodup
      rw [List.map_cons, List.take_succ_cons, List.take_succ_cons, List.drop_succ_cons]
      rw [markUnprocessed_cons, if_pos (List.mem_cons_self _ _)]
      have hcong : markUnprocessed (r.rid :: (rest.map BReq.rid).take k) rest
          = markUnprocessed ((rest.map BReq.rid).take k) rest := by
        apply markUnprocessed_congr
        intro x hx
        have hne : x.rid ≠ r.rid := by
          intro hc
          exact hnodup.1 (hc ▸ List.mem_map_of_mem BReq.rid hx)
        simp [List.mem_cons, hne]
      rw [hcong, ih k hnodup.2, List.cons_append]

/-- Re-marking with a larger processed prefix is a no-op: already-marked
requests absorb `markFailed` (idempotence), untouched ones are processed. -/
theorem markUnprocessed_stable (reqs : List BReq) (k j : Nat) (hkj : k ≤ j)
    (hnodup : (reqs.map BReq.rid).Nodup) :
    markUnprocessed ((reqs.map BReq.rid).take j)
        (markUnprocessed ((reqs.map BReq.rid).take k) reqs)
      = markUnprocessed ((reqs.map BReq.rid).take k) reqs := by
  rw [markUnprocessed_take reqs k hnodup, markUnprocessed_append]
  congr 1
  · apply markUnprocessed_eq_self
    intro x hx hnot
    exfalso
    apply hnot
    have hx' : x.rid ∈ (reqs.take k).map BReq.rid := List.mem_map_of_mem BReq.rid hx
    rw [List.map_take] at hx'
    have htk : (reqs.map BReq.rid).take k = ((reqs.map BReq.rid).take j).take k := by
      rw [List.take_take, min_eq_left hkj]
    rw [htk] at hx'
    exact List.take_subset _ _ hx'
  · apply markUnprocessed_eq_self
    intro x hx _
    rw [List.mem_map] at hx
    obtain ⟨y, _, hy⟩ := hx
    rw [← hy]
    exact markFailed_idem y

theorem range_map_add_succ (i t : Nat) :
    (List.range (t + 1)).map (fun j => i + j)
      = i :: (List.range t).map (fun j => (i + 1) + j) := by
  rw [List.range_succ_eq_map, List.map_cons, List.map_map]
  congr 1
  apply List.map_congr_left
  intro j _
  simp [Function.comp]
  omega

theorem regen_submit_no_fail (broker : Nat → Bool) (ids : List Nat) (i : Nat)
    (h : ∀ j, (hj : j < ids.length) → broker (i + j) = false) :
    regen_submit broker i ids = (ids, (List.range ids.length).map (fun j => i + j), none) := by
  induction ids generalizing i with
  | nil => rfl
  | cons rid rest ih =>
    have hb : broker i = false := by
      have := h 0 (by simp)
      simpa using this
    unfold regen_submit
    rw [if_neg (by simp [hb])]
    have hrec := ih (i + 1) (fun j hj => by
      have h2 := h (j + 1) (by simpa using Nat.succ_lt_succ hj)
      rw [show i + 1 + j = i + (j + 1) from by omega]
      exact h2)
    rw [hrec]
    simp only [List.length_cons]
    rw [range_map_add_succ]

theorem regen_submit_fail (broker : Nat → Bool) (ids : List Nat) (i k : Nat)
    (hk : k < ids.length) (hbk : broker (i + k) = true)
    (hbefore : ∀ j, (hj : j < k) → broker (i + j) = false) :
    regen_submit broker i ids
      = (ids.take k, (List.range (k + 1)).map (fun j => i + j), some (i + k)) := by
  induction ids generalizing i k with
  | nil => exact absurd hk (by simp)
  | cons rid rest ih =>
    cases k with
    | zero =>
      have hb : broker i = true := by simpa using hbk
      unfold regen_submit
      rw [if_pos (by simp [hb])]
      simp [List.range_succ]
    | succ k =>
      have hb : broker i = false := by
        have := hbefore 0 (Nat.succ_pos k)
        simpa using this
      unfold regen_submit
      rw [if_neg (by simp [hb])]
      have hrec := ih (i + 1) k (by simpa using Nat.lt_of_succ_lt_succ hk)
        (by rw [show i + 1 + k = i + (k + 1) from by omega]; exact hbk)
        (fun j hj => by
          have := hbefore (j + 1) (Nat.succ_lt_succ hj)
          rw [show i + 1 + j = i + (j + 1) from by omega]
          exact this)
      rw [hrec]
      simp only [List.take_succ_cons, Prod.mk.injEq, true_and]
      constructor
      · exact (range_map_add_succ i (k + 1)).symm
      · rw [show i + 1 + k = i + (k + 1) from by omega]

theorem take_append_getElem (ids : List Nat) (i : Nat) (h : i < ids.length) :
    ids.take i ++ [ids[i]] = ids.take (i + 1) := by
  rw [← List.concat_eq_append]
  exact List.take_concat_get ids i h

theorem range_map_zero_add (n : Nat) :
    (List.range n).map (fun j => 0 + j) = List.range n := by
  have h : (List.range n).map (fun j => 0 + j) = (List.range n).map id :=
    List.map_congr_left (fun j _ => by simp)
  rw [h, List.map_id]

/-- After the first broker failure, every further step of the `add_rm_batch`
loop leaves the already-marked state unchanged: earlier requests are in the
processed ids, later ones absorb a repeated `markFailed` (no-op). -/
theorem add_rm_go_stable (broker : Nat → Bool) (reqs : List BReq) (k : Nat)
    (hnodup : (reqs.map BReq.rid).Nodup) :
    ∀ t i, i + t = reqs.length → k ≤ i →
      add_rm_go broker i ((reqs.map BReq.rid).take i) ((reqs.map BReq.rid).drop i)
          (markUnprocessed ((reqs.map BReq.rid).take k) reqs)
        = (markUnprocessed ((reqs.map BReq.rid).take k) reqs,
           (List.range t).map (fun j => i + j)) := by
  intro t
  induction t with
  | zero =>
    intro i hi _
    have hdrop : (reqs.map BReq.rid).drop i = [] := by
      apply List.drop_eq_nil_of_le
      simp
      omega
    rw [hdrop]
    rfl
  | succ t ih =>
    intro i hi hki
    have hil' : i < (reqs.map BReq.rid).length := by
      simp
      omega
    rw [List.drop_eq_getElem_cons hil']
    unfold add_rm_go
    simp only []
    have hstate1 : (if broker i = true then
          markUnprocessed ((reqs.map BReq.rid).take i)
            (markUnprocessed ((reqs.map BReq.rid).take k) reqs)
        else markUnprocessed ((reqs.map BReq.rid).take k) reqs)
        = markUnprocessed ((reqs.map BReq.rid).take k) reqs := by
      by_cases hb : broker i = true
      · rw [if_pos hb]
        exact markUnprocessed_stable reqs k i hki hnodup
      · rw [if_neg hb]
    rw [hstate1, take_append_getElem _ i hil']
    rw [ih (i + 1) (by omega) (by omega)]
    simp only []
    rw [range_map_add_succ]

/-- Up to the first broker failure at index `k`, the `add_rm_batch` loop
leaves the state untouched, then marks the suffix from `k` on and keeps
attempting (and re-marking, as a no-op) the rest. -/
theorem add_rm_go_before (broker : Nat → Bool) (reqs : List BReq) (k : Nat)
    (hnodup : (reqs.map BReq.rid).Nodup) (hk : k < reqs.length)
    (hbk : broker k = true)
    (hbefore : ∀ j, (hj : j < k) → broker j = false) :
    ∀ d i, i + d = k →
      add_rm_go broker i ((reqs.map BReq.rid).take i) ((reqs.map BReq.rid).drop i) reqs
        = (markUnprocessed ((reqs.map BReq.rid).take k) reqs,
           (List.range (reqs.length - i)).map (fun j => i + j)) := by
  intro d
  induction d with
  | zero =>
    intro i hi
    have hik : i = k := by omega
    subst hik
    have hil' : i < (reqs.map BReq.rid).length := by
      simp
      omega
    rw [List.drop_eq_getElem_cons hil']
    unfold add_rm_go
    simp only []
    rw [if_pos hbk, take_append_getElem _ i hil']
    rw [add_rm_go_stable broker reqs i hnodup (reqs.length - (i + 1)) (i + 1)
      (by omega) (by omega)]
    simp only []
    rw [show reqs.length - i = (reqs.length - (i + 1)) + 1 from by omega,
      range_map_add_succ]
  | succ d ih =>
    intro i hi
    have hik : i < k := by omega
    have hil' : i < (reqs.map BReq.rid).length := by
      simp
      omega
    rw [List.drop_eq_getElem_cons hil']
    unfold add_rm_go
    simp only []
    rw [if_neg (by simp [hbefore i hik]), take_append_getElem _ i hil']
    rw [ih (i + 1) (by omega)]
    simp only []
    rw [show reqs.length - i = (reqs.length - (i + 1)) + 1 from by omega,
      range_map_add_succ]

/-! ## Claim C1: partial broker failure during batch dispatch -/

/-- Counterexample to claim C1 as stated: in `regenerate_bundle_batch`, with
the broker failing only at submission index 1 of a three-request batch, the
request at index 2 is never attempted (the loop stops; the attempted indices
are `[0, 1]` even though `broker 2 = false`) and it still ends up marked
failed although its own submission never errored. -/
theorem regenerate_dispatch_claim_cex :
    cexBroker 2 = false ∧
    (regenerate_dispatch cexBroker cexReqs).2 = [0, 1] ∧
    ((regenerate_dispatch cexBroker cexReqs).1.map (fun r => r.hist.current.1))
      = ["in_progress", "failed", "failed"] := by
  refine ⟨rfl, rfl, rfl⟩

/-- Claim C1 (amended): when the broker raises a transport error for the
first time at submission index `k` (ids distinct), in both batch endpoints
every request before index `k` is untouched and every request from index `k`
on is marked failed through the state machine; `regenerate_bundle_batch`
stops attempting after index `k` (attempts are exactly `0..k`), while
`add_rm_batch` keeps attempting every request exactly once (attempts
`0..n-1`), the re-marking on later failures being an idempotent no-op; a
fresh (`in_progress`) request acquires exactly one new `failed` entry with
the broker-unavailable reason. -/
theorem batch_dispatch_first_failure_behavior (broker : Nat → Bool)
    (reqs : List BReq) (k : Nat)
    (hnodup : (reqs.map BReq.rid).Nodup)
    (hk : k < reqs.length) (hbk : broker k = true)
    (hbefore : ∀ j, (hj : j < k) → broker j = false) :
    (regenerate_dispatch broker reqs).1 = reqs.take k ++ (reqs.drop k).map markFailed ∧
    (regenerate_dispatch broker reqs).2 = List.range (k + 1) ∧
    (add_rm_dispatch broker reqs).1 = reqs.take k ++ (reqs.drop k).map markFailed ∧
    (add_rm_dispatch broker reqs).2 = List.range reqs.length ∧
    (∀ r ∈ reqs, r.hist.current.1 = "in_progress" →
      markFailed r
        = ⟨r.rid, ⟨("failed", brokerFailureReason), r.hist.current :: r.hist.older⟩⟩) := by
  have hkl : k < (reqs.map BReq.rid).length := by
    simp
    omega
  have hsub := regen_submit_fail broker (reqs.map BReq.rid) 0 k hkl
    (by simpa using hbk) (fun j hj => by simpa using hbefore j hj)
  have hregen : regenerate_dispatch broker reqs
      = (markUnprocessed ((reqs.map BReq.rid).take k) reqs,
         (List.range (k + 1)).map (fun j => 0 + j)) := by
    unfold regenerate_dispatch
    rw [hsub]
  have hgo := add_rm_go_before broker reqs k hnodup hk hbk hbefore k 0 (by omega)
  rw [List.take_zero, List.drop_zero] at hgo
  have haddrm : add_rm_dispatch broker reqs
      = (markUnprocessed ((reqs.map BReq.rid).take k) reqs,
         (List.range (reqs.length - 0)).map (fun j => 0 + j)) := by
    unfold add_rm_dispatch
    exact hgo
  refine ⟨?_, ?_, ?_, ?_, ?_⟩
  · rw [hregen]
    exact markUnprocessed_take reqs k hnodup
  · rw [hregen]
    exact range_map_zero_add (k + 1)
  · rw [haddrm]
    exact markUnprocessed_take reqs k hnodup
  · rw [haddrm]
    simp only [Nat.sub_zero]
    exact range_map_zero_add reqs.length
  · intro r _ hfresh
    exact markFailed_fresh r hfresh

/-- Witness for `batch_dispatch_first_failure_behavior` at the concrete
three-request batch with the broker failing at index 1. -/
theorem batch_dispatch_first_failure_behavior_witness :
    (regenerate_dispatch cexBroker cexReqs).1
      = cexReqs.take 1 ++ (cexReqs.drop 1).map markFailed ∧
    (regenerate_dispatch cexBroker cexReqs).2 = List.range 2 ∧
    (add_rm_dispatch cexBroker cexReqs).1
      = cexReqs.take 1 ++ (cexReqs.drop 1).map markFailed ∧
    (add_rm_dispatch cexBroker cexReqs).2 = List.range cexReqs.length ∧
    (∀ r ∈ cexReqs, r.hist.current.1 = "in_progress" →
      markFailed r
        = ⟨r.rid, ⟨("failed", brokerFailureReason), r.hist.current :: r.hist.older⟩⟩) :=
  batch_dispatch_first_failure_behavior cexBroker cexReqs 1
    (by decide) (by decide) (by decide) (by decide)

/-! ## Claim C4: token redaction in the display argument list -/

/-- Claim C4 evaluated at the failing input: the payload supplies
`cnr_token = "secret"`, the submitted argument list retains the real token,
but the redacted display list still CONTAINS the literal token value:
`safe_args.index(token)` finds `from_index` (position 3) first and redacts
it, leaving the token itself in place at position 5.  This contradicts the
claim (and spec) that the display form never contains the token value. -/
theorem safe_args_token_leak_at_failing_input :
    mget cexAddPayload "cnr_token" = some (.str "secret") ∧
    (JVal.str "secret") ∈ add_bundles_args 1 cexAddPayload false .null ∧
    (add_bundles_safe_args cexAddPayload
        (add_bundles_args 1 cexAddPayload false .null))[3]? = some (.str "*****") ∧
    (add_bundles_safe_args cexAddPayload
        (add_bundles_args 1 cexAddPayload false .null))[5]? = some (.str "secret") ∧
    (JVal.str "secret") ∈ add_bundles_safe_args cexAddPayload
        (add_bundles_args 1 cexAddPayload false .null) := by
  refine ⟨rfl, ?_, rfl, rfl, ?_⟩
  · decide
  · decide

end IIB
